import Mathlib

/-!
Shallow embedding of the blob-synchronization timer job
`move_public_csv_timer` from `AppProcessaArquivo/project/function_app.py`.

The Python function reads its configuration from the environment, lists the
blobs of a public source container under an optional name prefix, keeps only
the names ending in `.csv` (case-insensitively), and for each such blob:
checks whether the destination blob already exists (skip if so), issues a
non-overwriting server-side copy, and — when a deletion SAS is configured —
deletes the source blob after a successful copy.  Four counters (`copied`,
`skipped`, `deleted`, `failed`) are accumulated and reported in a final
summary log line.  A `ResourceExistsError` raised by the copy is counted as
`skipped`; any other per-object exception is counted as `failed` and logged
with the blob name.  A failure outside the loop (e.g. a missing required
environment variable) aborts the whole run before any blob is processed and
yields no summary.

Blob names and configuration values are modelled as `List Char`, with the
Python string primitives (`lower`, `endswith`, `startswith`, `strip`,
f-string concatenation) defined over them, so that every definition reduces
in the kernel and concrete scenarios can be settled by `decide`.

The embedding makes the interaction with the external storage service
explicit: the source and destination containers are lists of blob names, and
a per-blob `StepFault` oracle chooses which (if any) of the service calls for
that blob misbehaves — the existence check raising, the copy being rejected
because a concurrent run created the destination between the check and the
copy (`ResourceExistsError`), the copy failing for another reason, or the
post-copy deletion failing.  (The Azure SDK raises `ResourceExistsError` only
from creation requests, so the existence-check and `delete_blob` fault modes
are generic exceptions.)  Issued copy and delete requests are recorded so
that "no copy request is performed" is directly statable.
-/

namespace BlobSync

/-- Strings of the Python source, modelled as lists of characters. -/
abbrev Str := List Char

/-- ASCII lowering of one character, as `str.lower` acts on the ASCII range
relevant to the `.csv` comparison. -/
def lowerChar (c : Char) : Char :=
  if 65 ≤ c.toNat ∧ c.toNat ≤ 90 then Char.ofNat (c.toNat + 32) else c

/-- Python `s.lower()`. -/
def lowerStr (s : Str) : Str := s.map lowerChar

/-- Python `s.endswith(suff)`. -/
def endsWithStr (s suff : Str) : Bool := suff.isSuffixOf s

/-- Python `s.startswith(p)`. -/
def startsWithStr (s p : Str) : Bool := p.isPrefixOf s

/-- Whitespace characters removed by Python `str.strip()` (the ASCII ones). -/
def isSpaceChar (c : Char) : Bool :=
  c = ' ' || c = '\t' || c = '\n' || c = '\r' || c.toNat = 11 || c.toNat = 12

/-- Python `s.strip()`. -/
def stripStr (s : Str) : Str :=
  ((s.dropWhile isSpaceChar).reverse.dropWhile isSpaceChar).reverse

/-- Which (at most one) of the per-blob service calls misbehaves for a given
blob.  `nofault` is the nominal path. -/
inductive StepFault where
  | nofault
  | existsErr
  | raceCreate
  | copyErr
  | deleteErr
deriving DecidableEq, Repr

/-- The environment variables read by the handler.  `none` models an unset
variable; `SOURCE_CONTAINER_URL`, `DEST_ACCOUNT` and `DEST_CONTAINER` are
read with `os.environ[...]` (raising `KeyError` when absent), the others with
`os.getenv(..., "")`. -/
structure Env where
  sourceContainerUrl : Option Str
  sourcePref : Option Str
  destAccount : Option Str
  destContainer : Option Str
  destPref : Option Str
  sourceDeleteSas : Option Str
deriving DecidableEq, Repr

/-- The configuration snapshot built at the start of a run. -/
structure SyncConfig where
  srcUrl : Str
  srcPref : Str
  destAccount : Str
  destContainer : Str
  destPref : Str
  /-- Field `SOURCE_DELETE_SAS`, already `.strip()`-ed as in the source. -/
  sas : Str
deriving DecidableEq, Repr

/-- Reading the environment variables at the top of the handler.  `none`
models the `KeyError` path for a missing required variable; the optional
variables default to the empty string, and the deletion SAS is stripped. -/
def loadConfig (env : Env) : Option SyncConfig :=
  match env.sourceContainerUrl, env.destAccount, env.destContainer with
  | some u, some a, some c =>
      some ⟨u, (env.sourcePref).getD [], a, c, (env.destPref).getD [],
            stripStr ((env.sourceDeleteSas).getD [])⟩
  | _, _, _ => none

/-- Log lines emitted by the handler: the per-object
`logger.exception("Falha ao processar {name}: ...")` line, the final
`logger.info` summary line, and the outer
`logger.exception("Falha geral ...")` line. -/
inductive LogEntry where
  | objectFailure (name : Str)
  | summary (copied skipped deleted failed : Nat)
  | generalFailure
deriving DecidableEq, Repr

/-- The full observable state of one pass: the two containers (as lists of
blob names), the four counters, the copy and delete requests issued to the
storage service, and the log. -/
structure PassState where
  src : List Str
  dest : List Str
  copied : Nat
  skipped : Nat
  deleted : Nat
  failed : Nat
  /-- Pairs `(source name, destination name)` of every `upload_blob_from_url`
  request issued, including rejected ones. -/
  copyRequests : List (Str × Str)
  /-- source names of every `delete_blob` request issued. -/
  deleteRequests : List Str
  log : List LogEntry
deriving DecidableEq, Repr

/-- Python `blob.name.lower().endswith(".csv")`. -/
def isCsv (name : Str) : Bool :=
  endsWithStr (lowerStr name) ('.' :: 'c' :: 's' :: 'v' :: [])

/-- Python `dest_blob_name = f"{DEST_PREFIX}{blob.name}"`. -/
def destBlobName (cfg : SyncConfig) (name : Str) : Str :=
  cfg.destPref ++ name

/-- The body of the per-blob `try` block for a blob that passed the `.csv`
filter, together with its two `except` handlers, under fault mode `f`:

* `f = existsErr`: `dest_client.exists()` raises a generic exception —
  caught by `except Exception`, so `failed` is incremented and the failure
  logged.
* destination already present (and the check did not raise): `skipped`.
* `f = raceCreate`: the destination was created by a concurrent run between
  the check and the copy, so `upload_blob_from_url` raises
  `ResourceExistsError` — caught as `skipped`.
* `f = copyErr`: the copy raises a generic exception — `failed`.
* `f = deleteErr`: the copy succeeds (`copied` incremented, destination
  created); if a deletion SAS is configured, `delete_blob` raises —
  `failed` is also incremented and the failure logged.
* `f = nofault`: the copy succeeds; with a SAS the source blob is deleted
  and `deleted` incremented. -/
def processCsv (cfg : SyncConfig) (f : StepFault) (st : PassState)
    (name : Str) : PassState :=
  if f = StepFault.existsErr then
    { st with failed := st.failed + 1,
              log := st.log ++ [LogEntry.objectFailure name] }
  else if destBlobName cfg name ∈ st.dest then
    { st with skipped := st.skipped + 1 }
  else
    match f with
    | StepFault.raceCreate =>
        { st with dest := destBlobName cfg name :: st.dest,
                  skipped := st.skipped + 1,
                  copyRequests := st.copyRequests ++ [(name, destBlobName cfg name)] }
    | StepFault.copyErr =>
        { st with failed := st.failed + 1,
                  copyRequests := st.copyRequests ++ [(name, destBlobName cfg name)],
                  log := st.log ++ [LogEntry.objectFailure name] }
    | StepFault.deleteErr =>
        if cfg.sas = [] then
          { st with dest := destBlobName cfg name :: st.dest,
                    copied := st.copied + 1,
                    copyRequests := st.copyRequests ++ [(name, destBlobName cfg name)] }
        else
          { st with dest := destBlobName cfg name :: st.dest,
                    copied := st.copied + 1,
                    copyRequests := st.copyRequests ++ [(name, destBlobName cfg name)],
                    deleteRequests := st.deleteRequests ++ [name],
                    failed := st.failed + 1,
                    log := st.log ++ [LogEntry.objectFailure name] }
    | _ =>
        if cfg.sas = [] then
          { st with dest := destBlobName cfg name :: st.dest,
                    copied := st.copied + 1,
                    copyRequests := st.copyRequests ++ [(name, destBlobName cfg name)] }
        else
          { st with dest := destBlobName cfg name :: st.dest,
                    copied := st.copied + 1,
                    src := st.src.erase name,
                    deleted := st.deleted + 1,
                    copyRequests := st.copyRequests ++ [(name, destBlobName cfg name)],
                    deleteRequests := st.deleteRequests ++ [name] }

/-- One iteration of the `for blob in src_container.list_blobs(...)` loop:
blobs whose lowered name does not end in `.csv` are passed over by the
`continue` before any service call. -/
def processBlob (cfg : SyncConfig) (fault : Str → StepFault)
    (st : PassState) (name : Str) : PassState :=
  if isCsv name then processCsv cfg (fault name) st name else st

/-- The whole loop over an already-materialized listing. -/
def processAll (cfg : SyncConfig) (fault : Str → StepFault)
    (st : PassState) (names : List Str) : PassState :=
  names.foldl (processBlob cfg fault) st

/-- Python `src_container.list_blobs(name_starts_with=SRC_PREFIX)`: the names in
the source container that start with the configured prefix, in container
order, as seen when the listing cursor is opened. -/
def listing (cfg : SyncConfig) (src : List Str) : List Str :=
  src.filter (fun n => startsWithStr n cfg.srcPref)

/-- The state a run starts from: the two containers as given, counters at
zero, no requests issued, empty log. -/
def initState (src dest : List Str) : PassState :=
  ⟨src, dest, 0, 0, 0, 0, [], [], []⟩

/-- One invocation of `move_public_csv_timer`, given the contents of the
source and destination containers.  A missing required environment variable
raises `KeyError` inside the outer `try`, before the counters are created
and before the listing is opened: only the general-failure line is logged.
Otherwise the loop runs to completion and the summary line is emitted. -/
def runPass (env : Env) (fault : Str → StepFault)
    (src dest : List Str) : PassState :=
  match loadConfig env with
  | none => { initState src dest with log := [LogEntry.generalFailure] }
  | some cfg =>
      let st := processAll cfg fault (initState src dest) (listing cfg src)
      { st with
          log := st.log ++ [LogEntry.summary st.copied st.skipped st.deleted st.failed] }

/-- The four counters of a state, for stating that two outcomes are counted
identically. -/
def counters (st : PassState) : Nat × Nat × Nat × Nat :=
  (st.copied, st.skipped, st.deleted, st.failed)

/-- The all-nominal fault oracle. -/
def noFaults : Str → StepFault := fun _ => StepFault.nofault

end BlobSync

namespace BlobSync

/-! ### Sample data used by the witness theorems -/

/-- A configuration with no deletion SAS. -/
def sampleCfg : SyncConfig :=
  ⟨("https://srcacct.blob.core.windows.net/publiccontainer".data),
   [], ("destacct".data), ("destcontainer".data), ("out/".data), []⟩

/-- A configuration with a deletion SAS. -/
def sampleCfgSas : SyncConfig :=
  ⟨("https://srcacct.blob.core.windows.net/publiccontainer".data),
   [], ("destacct".data), ("destcontainer".data), ("out/".data),
   ("sv=2021&sig=abc".data)⟩

/-- The environment of the concrete scenario of §8 of the spec: source
names are listed under the name filter `in/`, the destination prefix is
`out/`, and no deletion SAS is configured. -/
def scenEnv : Env :=
  ⟨some ("https://srcacct.blob.core.windows.net/publiccontainer".data),
   some ("in/".data), some ("destacct".data), some ("destcontainer".data),
   some ("out/".data), none⟩

/-- The source container of the concrete scenario of §8. -/
def scenSrc : List Str :=
  [("in/a.csv".data), ("in/b.CSV".data), ("in/notes.txt".data)]

/-- The configuration snapshot that `loadConfig` builds from `scenEnv`. -/
def scenCfg : SyncConfig :=
  ⟨("https://srcacct.blob.core.windows.net/publiccontainer".data),
   ("in/".data), ("destacct".data), ("destcontainer".data), ("out/".data), []⟩

/-- A sample pass state with one blob in each container. -/
def sampleSt : PassState :=
  ⟨[("a.csv".data)], [("out/a.csv".data)], 0, 0, 0, 0, [], [], []⟩

/-- A fault oracle failing every copy. -/
def allCopyErr : Str → StepFault := fun _ => StepFault.copyErr

/-- A fault oracle losing every check-then-copy race. -/
def allRace : Str → StepFault := fun _ => StepFault.raceCreate

/-- A fault oracle failing every post-copy deletion. -/
def allDeleteErr : Str → StepFault := fun _ => StepFault.deleteErr

/-- The situations in which the processing of one `.csv` blob raises an
exception other than `ResourceExistsError`: the existence check raises; the
copy (attempted because the destination was absent) raises a generic error;
or the post-copy deletion (attempted because a SAS is configured) raises. -/
abbrev genericErrorAt (cfg : SyncConfig) (fault : Str → StepFault)
    (st : PassState) (name : Str) : Prop :=
  fault name = StepFault.existsErr ∨
    (destBlobName cfg name ∉ st.dest ∧
      (fault name = StepFault.copyErr ∨
        (fault name = StepFault.deleteErr ∧ cfg.sas ≠ [])))

/-! ### Claim theorems: per-object behaviour -/

/-- Claim C1: an enumerated object whose name does not end in `.csv`
(case-insensitively) is passed over entirely: no copy request, no delete
request, no counter change, no container change — the loop body is a
no-op for it. -/
theorem nonCsvIsUntouched (cfg : SyncConfig) (fault : Str → StepFault)
    (st : PassState) (name : Str) (h : isCsv name = false) :
    processBlob cfg fault st name = st := by
  simp [processBlob, h]

/-- Witness for C1 at the scenario's `in/notes.txt`. -/
theorem nonCsvIsUntouchedWitness :
    isCsv ("in/notes.txt".data) = false ∧
    processBlob sampleCfg noFaults sampleSt ("in/notes.txt".data) = sampleSt :=
  ⟨by decide, nonCsvIsUntouched sampleCfg noFaults sampleSt ("in/notes.txt".data) (by decide)⟩

/-- Claim C2: a `.csv` object whose destination name is already present
before it is processed (and whose existence check returns normally) is
counted as skipped, and nothing else happens: no copy request, no delete
request, both containers unchanged. -/
theorem preexistingIsSkipped (cfg : SyncConfig) (fault : Str → StepFault)
    (st : PassState) (name : Str)
    (hcsv : isCsv name = true)
    (hmem : destBlobName cfg name ∈ st.dest)
    (hf : fault name ≠ StepFault.existsErr) :
    processBlob cfg fault st name = { st with skipped := st.skipped + 1 } := by
  simp [processBlob, hcsv, processCsv, hf, hmem]

/-- Witness for C2: `a.csv` with `out/a.csv` already at the destination. -/
theorem preexistingIsSkippedWitness :
    isCsv ("a.csv".data) = true ∧
    destBlobName sampleCfg ("a.csv".data) ∈ sampleSt.dest ∧
    processBlob sampleCfg noFaults sampleSt ("a.csv".data) =
      { sampleSt with skipped := sampleSt.skipped + 1 } :=
  ⟨by decide, by decide,
   preexistingIsSkipped sampleCfg noFaults sampleSt ("a.csv".data)
     (by decide) (by decide) (by decide)⟩

/-- Claim C4: when the copy of a new `.csv` object succeeds, the handling
of the source object depends exactly on whether a deletion SAS is
configured: with a SAS the source blob is deleted (a delete request is
issued, the blob leaves the source container) and `deleted` is
incremented; without one no delete request is issued, the source container
is untouched and `deleted` is unchanged. -/
theorem postCopyDeletion (cfg : SyncConfig) (fault : Str → StepFault)
    (st : PassState) (name : Str)
    (hcsv : isCsv name = true)
    (habs : destBlobName cfg name ∉ st.dest)
    (hf : fault name = StepFault.nofault) :
    (cfg.sas ≠ [] →
      processBlob cfg fault st name =
        { st with dest := destBlobName cfg name :: st.dest,
                  copied := st.copied + 1,
                  src := st.src.erase name,
                  deleted := st.deleted + 1,
                  copyRequests := st.copyRequests ++ [(name, destBlobName cfg name)],
                  deleteRequests := st.deleteRequests ++ [name] }) ∧
    (cfg.sas = [] →
      processBlob cfg fault st name =
        { st with dest := destBlobName cfg name :: st.dest,
                  copied := st.copied + 1,
                  copyRequests := st.copyRequests ++ [(name, destBlobName cfg name)] }) := by
  constructor <;> intro hsas <;>
    simp [processBlob, hcsv, processCsv, hf, habs, hsas]

/-- Witness for C4, exercising both the SAS and the no-SAS branch on a
fresh `b.csv`. -/
theorem postCopyDeletionWitness :
    (isCsv ("b.csv".data) = true ∧
     destBlobName sampleCfgSas ("b.csv".data) ∉ sampleSt.dest ∧
     processBlob sampleCfgSas noFaults sampleSt ("b.csv".data) =
       { sampleSt with
           dest := destBlobName sampleCfgSas ("b.csv".data) :: sampleSt.dest,
           copied := sampleSt.copied + 1,
           src := sampleSt.src.erase ("b.csv".data),
           deleted := sampleSt.deleted + 1,
           copyRequests :=
             sampleSt.copyRequests ++ [(("b.csv".data), destBlobName sampleCfgSas ("b.csv".data))],
           deleteRequests := sampleSt.deleteRequests ++ [("b.csv".data)] }) ∧
    (processBlob sampleCfg noFaults sampleSt ("b.csv".data) =
       { sampleSt with
           dest := destBlobName sampleCfg ("b.csv".data) :: sampleSt.dest,
           copied := sampleSt.copied + 1,
           copyRequests :=
             sampleSt.copyRequests ++ [(("b.csv".data), destBlobName sampleCfg ("b.csv".data))] }) :=
  ⟨⟨by decide, by decide,
    (postCopyDeletion sampleCfgSas noFaults sampleSt ("b.csv".data)
      (by decide) (by decide) (by decide)).1 (by decide)⟩,
   (postCopyDeletion sampleCfg noFaults sampleSt ("b.csv".data)
      (by decide) (by decide) (by decide)).2 (by decide)⟩

/-- Claim C6: a copy rejected because the destination appeared between the
existence check and the copy (the overlapping-run race) is counted as
skipped, not failed — with exactly the same four counters as if the object
had already been present before the check. -/
theorem raceLoserIsSkipped (cfg : SyncConfig) (fault : Str → StepFault)
    (st : PassState) (name : Str)
    (hcsv : isCsv name = true)
    (habs : destBlobName cfg name ∉ st.dest)
    (hf : fault name = StepFault.raceCreate) :
    (processBlob cfg fault st name).skipped = st.skipped + 1 ∧
    (processBlob cfg fault st name).failed = st.failed ∧
    counters (processBlob cfg fault st name) =
      counters (processBlob cfg noFaults
        { st with dest := destBlobName cfg name :: st.dest } name) := by
  refine ⟨?_, ?_, ?_⟩ <;>
    simp [processBlob, hcsv, processCsv, hf, habs, counters, noFaults]

/-- Witness for C6 on a fresh `c.csv` whose copy loses the race. -/
theorem raceLoserIsSkippedWitness :
    isCsv ("c.csv".data) = true ∧
    destBlobName sampleCfg ("c.csv".data) ∉ sampleSt.dest ∧
    (processBlob sampleCfg allRace sampleSt ("c.csv".data)).skipped = sampleSt.skipped + 1 ∧
    (processBlob sampleCfg allRace sampleSt ("c.csv".data)).failed = sampleSt.failed ∧
    counters (processBlob sampleCfg allRace sampleSt ("c.csv".data)) =
      counters (processBlob sampleCfg noFaults
        { sampleSt with dest := destBlobName sampleCfg ("c.csv".data) :: sampleSt.dest }
        ("c.csv".data)) :=
  ⟨by decide, by decide,
   raceLoserIsSkipped sampleCfg allRace sampleSt ("c.csv".data)
     (by decide) (by decide) (by decide)⟩

/-- Claim C9: when the copy succeeds but the configured post-copy deletion
raises, the object is counted in both `copied` and `failed`, and `deleted`
is unchanged — so the four counters double-count such an object rather
than partitioning the processed objects. -/
theorem deleteFailureDoubleCounts (cfg : SyncConfig) (fault : Str → StepFault)
    (st : PassState) (name : Str)
    (hcsv : isCsv name = true)
    (habs : destBlobName cfg name ∉ st.dest)
    (hf : fault name = StepFault.deleteErr)
    (hsas : cfg.sas ≠ []) :
    (processBlob cfg fault st name).copied = st.copied + 1 ∧
    (processBlob cfg fault st name).failed = st.failed + 1 ∧
    (processBlob cfg fault st name).deleted = st.deleted ∧
    (processBlob cfg fault st name).log = st.log ++ [LogEntry.objectFailure name] := by
  refine ⟨?_, ?_, ?_, ?_⟩ <;>
    simp [processBlob, hcsv, processCsv, hf, habs, hsas]

/-- Witness for C9 on a fresh `d.csv` whose deletion fails after a
successful copy, under the SAS-configured sample. -/
theorem deleteFailureDoubleCountsWitness :
    isCsv ("d.csv".data) = true ∧
    (processBlob sampleCfgSas allDeleteErr sampleSt ("d.csv".data)).copied = sampleSt.copied + 1 ∧
    (processBlob sampleCfgSas allDeleteErr sampleSt ("d.csv".data)).failed = sampleSt.failed + 1 ∧
    (processBlob sampleCfgSas allDeleteErr sampleSt ("d.csv".data)).deleted = sampleSt.deleted ∧
    (processBlob sampleCfgSas allDeleteErr sampleSt ("d.csv".data)).log =
      sampleSt.log ++ [LogEntry.objectFailure ("d.csv".data)] :=
  ⟨by decide,
   (deleteFailureDoubleCounts sampleCfgSas allDeleteErr sampleSt ("d.csv".data)
     (by decide) (by decide) (by decide) (by decide)).1,
   (deleteFailureDoubleCounts sampleCfgSas allDeleteErr sampleSt ("d.csv".data)
     (by decide) (by decide) (by decide) (by decide)).2⟩

end BlobSync

namespace BlobSync

/-! ### Helper lemmas about the requests issued by one step and by the loop -/

/-- One loop iteration only ever issues a copy request carrying the current
blob's name as source and `DEST_PREFIX ++ name` as destination. -/
theorem processBlob_copyRequests_shape (cfg : SyncConfig) (fault : Str → StepFault)
    (st : PassState) (name : Str) :
    ∀ p ∈ (processBlob cfg fault st name).copyRequests,
      p ∈ st.copyRequests ∨ p = (name, destBlobName cfg name) := by
  intro p hp
  unfold processBlob processCsv at hp
  repeat' split at hp
  all_goals simp_all

/-- Over a whole listing, every copy request either predates the loop or
names some listed blob, with destination `DEST_PREFIX ++ source name`. -/
theorem processAll_copyRequests_shape (cfg : SyncConfig) (fault : Str → StepFault)
    (names : List Str) :
    ∀ st : PassState, ∀ p ∈ (processAll cfg fault st names).copyRequests,
      p ∈ st.copyRequests ∨ ∃ s ∈ names, p = (s, destBlobName cfg s) := by
  induction names with
  | nil => intro st p hp; exact Or.inl hp
  | cons a l ih =>
      intro st p hp
      rcases ih (processBlob cfg fault st a) p hp with h | ⟨s, hs, hps⟩
      · rcases processBlob_copyRequests_shape cfg fault st a p h with h1 | h1
        · exact Or.inl h1
        · exact Or.inr ⟨a, by simp, h1⟩
      · exact Or.inr ⟨s, by simp [hs], hps⟩

end BlobSync

namespace BlobSync

/-- Claim C3: every copy request issued by a run addresses the destination
name `DEST_PREFIX ++ source name` for some blob of the source listing —
plain concatenation, so the hierarchical path of the source name is carried
over unmodified. -/
theorem destNameIsPrefixedSourceName (env : Env) (fault : Str → StepFault)
    (src dest : List Str) (p : Str × Str)
    (hp : p ∈ (runPass env fault src dest).copyRequests) :
    ∃ cfg, loadConfig env = some cfg ∧
      ∃ s ∈ listing cfg src, p = (s, cfg.destPref ++ s) := by
  unfold runPass at hp
  split at hp
  · simp [initState] at hp
  · rename_i cfg hcfg
    simp only at hp
    rcases processAll_copyRequests_shape cfg fault (listing cfg src)
        (initState src dest) p hp with h | ⟨s, hs, hps⟩
    · simp [initState] at h
    · exact ⟨cfg, hcfg, s, hs, hps⟩

/-- Witness for C3 at the scenario's first copy request. -/
theorem destNameIsPrefixedSourceNameWitness :
    ((("in/a.csv".data), ("out/in/a.csv".data)) ∈
        (runPass scenEnv noFaults scenSrc []).copyRequests) ∧
    ∃ cfg, loadConfig scenEnv = some cfg ∧
      ∃ s ∈ listing cfg scenSrc,
        ((("in/a.csv".data), ("out/in/a.csv".data)) : Str × Str) = (s, cfg.destPref ++ s) :=
  ⟨by decide,
   destNameIsPrefixedSourceName scenEnv noFaults scenSrc []
     ((("in/a.csv".data), ("out/in/a.csv".data))) (by decide)⟩

end BlobSync

namespace BlobSync

/-- Claim C7 needs: with the destination container variable unset, the
configuration load fails. -/
theorem loadConfig_none_of_missing (env : Env) (h : env.destContainer = none) :
    loadConfig env = none := by
  unfold loadConfig
  rcases hu : env.sourceContainerUrl with _ | u <;>
    rcases ha : env.destAccount with _ | a <;> simp [h]

/-- Claim C7: when the destination container setting is absent, the run
aborts inside the outer handler before any object is enumerated: the
result is the initial state with only the general-failure log line — all
four counters are zero, no copy or delete request was issued, both
containers are untouched, and no summary is emitted. -/
theorem missingConfigAborts (env : Env) (fault : Str → StepFault)
    (src dest : List Str) (h : env.destContainer = none) :
    runPass env fault src dest =
      { initState src dest with log := [LogEntry.generalFailure] } ∧
    counters (runPass env fault src dest) = (0, 0, 0, 0) ∧
    (runPass env fault src dest).copyRequests = [] ∧
    (runPass env fault src dest).deleteRequests = [] ∧
    (runPass env fault src dest).src = src ∧
    (runPass env fault src dest).dest = dest ∧
    ∀ c s d f, LogEntry.summary c s d f ∉ (runPass env fault src dest).log := by
  have hload : loadConfig env = none := loadConfig_none_of_missing env h
  refine ⟨?_, ?_, ?_, ?_, ?_, ?_, ?_⟩ <;>
    simp [runPass, hload, initState, counters]

/-- Witness for C7: the scenario environment with `DEST_CONTAINER` unset. -/
theorem missingConfigAbortsWitness :
    (Env.destContainer ⟨some ("u".data), some ("in/".data), some ("destacct".data),
        none, some ("out/".data), none⟩ = none) ∧
    counters (runPass ⟨some ("u".data), some ("in/".data), some ("destacct".data),
        none, some ("out/".data), none⟩ noFaults scenSrc []) = (0, 0, 0, 0) ∧
    (runPass ⟨some ("u".data), some ("in/".data), some ("destacct".data),
        none, some ("out/".data), none⟩ noFaults scenSrc []).copyRequests = [] :=
  ⟨rfl,
   (missingConfigAborts ⟨some ("u".data), some ("in/".data), some ("destacct".data),
        none, some ("out/".data), none⟩ noFaults scenSrc [] rfl).2.1,
   (missingConfigAborts ⟨some ("u".data), some ("in/".data), some ("destacct".data),
        none, some ("out/".data), none⟩ noFaults scenSrc [] rfl).2.2.1⟩

end BlobSync

namespace BlobSync

/-- Claim C5: a per-object exception other than the already-exists conflict
— in the existence check, the copy, or the post-copy deletion — increments
`failed` by one and appends a failure log line carrying the object's name;
the loop is a fold, so the objects after it are processed exactly as if the
failure had not happened, and whenever the configuration loads, the run
always ends by emitting the summary of its final counters, whatever the
per-object faults were. -/
theorem perObjectErrorIsIsolated :
    (∀ (cfg : SyncConfig) (fault : Str → StepFault) (st : PassState) (name : Str),
      isCsv name = true → genericErrorAt cfg fault st name →
        (processBlob cfg fault st name).failed = st.failed + 1 ∧
        (processBlob cfg fault st name).log = st.log ++ [LogEntry.objectFailure name]) ∧
    (∀ (cfg : SyncConfig) (fault : Str → StepFault) (st : PassState) (pre post : List Str),
      processAll cfg fault st (pre ++ post) =
        processAll cfg fault (processAll cfg fault st pre) post) ∧
    (∀ (env : Env) (fault : Str → StepFault) (src dest : List Str) (cfg : SyncConfig),
      loadConfig env = some cfg →
        LogEntry.summary (runPass env fault src dest).copied
            (runPass env fault src dest).skipped
            (runPass env fault src dest).deleted
            (runPass env fault src dest).failed ∈ (runPass env fault src dest).log) := by
  refine ⟨?_, ?_, ?_⟩
  · intro cfg fault st name hcsv herr
    rcases herr with hex | ⟨habs, hco | ⟨hdel, hsas⟩⟩
    · constructor <;> simp [processBlob, hcsv, processCsv, hex]
    · constructor <;> simp [processBlob, hcsv, processCsv, hco, habs]
    · constructor <;> simp [processBlob, hcsv, processCsv, hdel, habs, hsas]
  · intro cfg fault st pre post
    simp [processAll, List.foldl_append]
  · intro env fault src dest cfg hcfg
    simp [runPass, hcfg]

/-- Witness for C5: a failing copy of `e.csv` is counted and logged, and a
summary is still emitted by the scenario run under that fault. -/
theorem perObjectErrorIsIsolatedWitness :
    (isCsv ("e.csv".data) = true ∧
     genericErrorAt sampleCfg allCopyErr sampleSt ("e.csv".data)) ∧
    ((processBlob sampleCfg allCopyErr sampleSt ("e.csv".data)).failed = sampleSt.failed + 1 ∧
     (processBlob sampleCfg allCopyErr sampleSt ("e.csv".data)).log =
       sampleSt.log ++ [LogEntry.objectFailure ("e.csv".data)]) ∧
    (loadConfig scenEnv = some scenCfg ∧
     LogEntry.summary (runPass scenEnv allCopyErr scenSrc []).copied
        (runPass scenEnv allCopyErr scenSrc []).skipped
        (runPass scenEnv allCopyErr scenSrc []).deleted
        (runPass scenEnv allCopyErr scenSrc []).failed
       ∈ (runPass scenEnv allCopyErr scenSrc []).log) :=
  ⟨⟨by decide, by decide⟩,
   perObjectErrorIsIsolated.1 sampleCfg allCopyErr sampleSt ("e.csv".data)
     (by decide) (by decide),
   by decide,
   perObjectErrorIsIsolated.2.2 scenEnv allCopyErr scenSrc [] scenCfg (by decide)⟩

end BlobSync

namespace BlobSync

/-! ### Helper lemmas for the counter invariant -/

/-- One loop iteration preserves `deleted ≤ copied`: `deleted` is only ever
incremented in a branch that also increments `copied`. -/
theorem processBlob_deleted_le (cfg : SyncConfig) (fault : Str → StepFault)
    (st : PassState) (name : Str) (h : st.deleted ≤ st.copied) :
    (processBlob cfg fault st name).deleted ≤ (processBlob cfg fault st name).copied := by
  unfold processBlob processCsv
  repeat' split
  all_goals simp_all
  all_goals omega

/-- The whole loop preserves `deleted ≤ copied`. -/
theorem processAll_deleted_le (cfg : SyncConfig) (fault : Str → StepFault)
    (names : List Str) :
    ∀ st : PassState, st.deleted ≤ st.copied →
      (processAll cfg fault st names).deleted ≤ (processAll cfg fault st names).copied := by
  induction names with
  | nil => intro st h; exact h
  | cons a l ih =>
      intro st h
      exact ih (processBlob cfg fault st a) (processBlob_deleted_le cfg fault st a h)

/-- One loop iteration appends only per-object failure lines to the log. -/
theorem processBlob_log_shape (cfg : SyncConfig) (fault : Str → StepFault)
    (st : PassState) (name : Str) :
    ∀ e ∈ (processBlob cfg fault st name).log,
      e ∈ st.log ∨ ∃ n, e = LogEntry.objectFailure n := by
  intro e he
  unfold processBlob processCsv at he
  repeat' split at he
  all_goals simp_all
  all_goals exact he.imp id (fun h1 => ⟨name, h1⟩)

/-- The whole loop appends only per-object failure lines to the log. -/
theorem processAll_log_shape (cfg : SyncConfig) (fault : Str → StepFault)
    (names : List Str) :
    ∀ st : PassState, ∀ e ∈ (processAll cfg fault st names).log,
      e ∈ st.log ∨ ∃ n, e = LogEntry.objectFailure n := by
  induction names with
  | nil => intro st e he; exact Or.inl he
  | cons a l ih =>
      intro st e he
      rcases ih (processBlob cfg fault st a) e he with h | h
      · exact processBlob_log_shape cfg fault st a e h
      · exact Or.inr h

/-- Claim C10: `deleted` never exceeds `copied` — each step preserves the
inequality, the final counters of every run satisfy it, and so does every
summary line a run ever emits. -/
theorem deletedNeverExceedsCopied :
    (∀ (cfg : SyncConfig) (fault : Str → StepFault) (st : PassState) (name : Str),
      st.deleted ≤ st.copied →
        (processBlob cfg fault st name).deleted ≤ (processBlob cfg fault st name).copied) ∧
    (∀ (env : Env) (fault : Str → StepFault) (src dest : List Str),
      (runPass env fault src dest).deleted ≤ (runPass env fault src dest).copied) ∧
    (∀ (env : Env) (fault : Str → StepFault) (src dest : List Str)
        (c s d f : Nat),
      LogEntry.summary c s d f ∈ (runPass env fault src dest).log → d ≤ c) := by
  refine ⟨processBlob_deleted_le, ?_, ?_⟩
  · intro env fault src dest
    unfold runPass
    split
    · simp [initState]
    · simpa using
        processAll_deleted_le _ fault (listing _ src) (initState src dest) (by simp [initState])
  · intro env fault src dest c s d f hmem
    unfold runPass at hmem
    split at hmem
    · simp [initState] at hmem
    · rename_i cfg hcfg
      simp only [List.mem_append, List.mem_singleton] at hmem
      rcases hmem with h | h
      · rcases processAll_log_shape cfg fault (listing cfg src) (initState src dest) _ h with
          h1 | ⟨n, h1⟩
        · simp [initState] at h1
        · simp at h1
      · have hd : d = (processAll cfg fault (initState src dest) (listing cfg src)).deleted :=
          congrArg (fun e => match e with
            | LogEntry.summary _ _ x _ => x
            | _ => 0) h
        have hc : c = (processAll cfg fault (initState src dest) (listing cfg src)).copied :=
          congrArg (fun e => match e with
            | LogEntry.summary x _ _ _ => x
            | _ => 0) h
        rw [hd, hc]
        exact processAll_deleted_le cfg fault (listing cfg src) (initState src dest)
          (by simp [initState])

/-- Witness for C10: the invariant applied to one nominal step, and the
final and summarized counters of the scenario run with deletion enabled. -/
theorem deletedNeverExceedsCopiedWitness :
    (sampleSt.deleted ≤ sampleSt.copied ∧
     (processBlob sampleCfgSas noFaults sampleSt ("b.csv".data)).deleted ≤
       (processBlob sampleCfgSas noFaults sampleSt ("b.csv".data)).copied) ∧
    (runPass scenEnv noFaults scenSrc []).deleted ≤ (runPass scenEnv noFaults scenSrc []).copied :=
  ⟨⟨Nat.le.refl,
    deletedNeverExceedsCopied.1 sampleCfgSas noFaults sampleSt ("b.csv".data) Nat.le.refl⟩,
   deletedNeverExceedsCopied.2.1 scenEnv noFaults scenSrc []⟩

end BlobSync

namespace BlobSync

/-! ### Helper lemmas for idempotence of consecutive runs -/

/-- The SAS stored in the configuration is the stripped environment value. -/
theorem loadConfig_sas (env : Env) (cfg : SyncConfig)
    (h : loadConfig env = some cfg) :
    cfg.sas = stripStr ((Env.sourceDeleteSas env).getD []) := by
  unfold loadConfig at h
  rcases hu : env.sourceContainerUrl with _ | u <;> rw [hu] at h <;>
    rcases ha : env.destAccount with _ | a <;> rw [ha] at h <;>
      rcases hc : env.destContainer with _ | c <;> rw [hc] at h <;>
        simp at h
  rw [← h]

/-- A blob present at the destination stays present across one iteration. -/
theorem processBlob_dest_mono (cfg : SyncConfig) (fault : Str → StepFault)
    (st : PassState) (name : Str) :
    ∀ d ∈ st.dest, d ∈ (processBlob cfg fault st name).dest := by
  intro d hd
  unfold processBlob processCsv
  repeat' split
  all_goals simp_all

/-- A blob present at the destination stays present across the whole loop. -/
theorem processAll_dest_mono (cfg : SyncConfig) (fault : Str → StepFault)
    (names : List Str) :
    ∀ st : PassState, ∀ d ∈ st.dest, d ∈ (processAll cfg fault st names).dest := by
  induction names with
  | nil => intro st d hd; exact hd
  | cons a l ih =>
      intro st d hd
      exact ih (processBlob cfg fault st a) d (processBlob_dest_mono cfg fault st a d hd)

/-- After a nominal iteration on a `.csv` blob, its destination name is
present (it either already was, or the copy just created it). -/
theorem processBlob_nofault_dest_mem (cfg : SyncConfig) (st : PassState)
    (a : Str) (hcsv : isCsv a = true) :
    destBlobName cfg a ∈ (processBlob cfg noFaults st a).dest := by
  unfold processBlob processCsv
  simp only [noFaults, hcsv, if_true]
  repeat' split
  all_goals simp_all

/-- After a nominal pass, every listed `.csv` blob has its destination name
present at the destination. -/
theorem processAll_nofault_dest_mem (cfg : SyncConfig) (names : List Str) :
    ∀ st : PassState, ∀ n ∈ names, isCsv n = true →
      destBlobName cfg n ∈ (processAll cfg noFaults st names).dest := by
  induction names with
  | nil => intro st n hn; simp at hn
  | cons a l ih =>
      intro st n hn hcsv
      rcases List.mem_cons.mp hn with rfl | hn2
      · exact processAll_dest_mono cfg noFaults l (processBlob cfg noFaults st n)
          (destBlobName cfg n) (processBlob_nofault_dest_mem cfg st n hcsv)
      · exact ih (processBlob cfg noFaults st a) n hn2 hcsv

/-- Without a deletion SAS one iteration never touches the source
container. -/
theorem processBlob_src_const (cfg : SyncConfig) (fault : Str → StepFault)
    (st : PassState) (name : Str) (hsas : cfg.sas = []) :
    (processBlob cfg fault st name).src = st.src := by
  unfold processBlob processCsv
  repeat' split
  all_goals simp_all

/-- Without a deletion SAS the whole loop never touches the source
container. -/
theorem processAll_src_const (cfg : SyncConfig) (fault : Str → StepFault)
    (names : List Str) (hsas : cfg.sas = []) :
    ∀ st : PassState, (processAll cfg fault st names).src = st.src := by
  induction names with
  | nil => intro st; rfl
  | cons a l ih =>
      intro st
      rw [show processAll cfg fault st (a :: l) =
            processAll cfg fault (processBlob cfg fault st a) l from rfl,
          ih (processBlob cfg fault st a),
          processBlob_src_const cfg fault st a hsas]

/-- A nominal loop over blobs whose destinations are all already present
only counts skips: no copy request, no copy, no change to the containers. -/
theorem processAll_all_present (cfg : SyncConfig) (names : List Str) :
    ∀ st : PassState,
      (∀ n ∈ names, isCsv n = true → destBlobName cfg n ∈ st.dest) →
      (processAll cfg noFaults st names).copied = st.copied ∧
      (processAll cfg noFaults st names).skipped =
        st.skipped + (names.filter isCsv).length ∧
      (processAll cfg noFaults st names).copyRequests = st.copyRequests ∧
      (processAll cfg noFaults st names).dest = st.dest ∧
      (processAll cfg noFaults st names).src = st.src := by
  induction names with
  | nil => intro st h; simp [processAll]
  | cons a l ih =>
      intro st h
      have hstep0 : processAll cfg noFaults st (a :: l) =
          processAll cfg noFaults (processBlob cfg noFaults st a) l := rfl
      by_cases hcsv : isCsv a = true
      · have hmem : destBlobName cfg a ∈ st.dest := h a (List.mem_cons_self a l) hcsv
        have hstep : processBlob cfg noFaults st a =
            { st with skipped := st.skipped + 1 } := by
          simp [processBlob, hcsv, processCsv, noFaults, hmem]
        obtain ⟨h1, h2, h3, h4, h5⟩ := ih { st with skipped := st.skipped + 1 }
          (fun n hn hc => h n (List.mem_cons_of_mem a hn) hc)
        rw [hstep0, hstep]
        refine ⟨h1, ?_, h3, h4, h5⟩
        rw [h2]
        simp [List.filter_cons, hcsv]
        omega
      · have hcsvF : isCsv a = false := by simpa using hcsv
        have hstep : processBlob cfg noFaults st a = st := by
          simp [processBlob, hcsvF]
        obtain ⟨h1, h2, h3, h4, h5⟩ := ih st (fun n hn hc => h n (List.mem_cons_of_mem a hn) hc)
        rw [hstep0, hstep]
        refine ⟨h1, ?_, h3, h4, h5⟩
        rw [h2]
        simp [List.filter_cons, hcsvF]

/-- In a nominal pass every listed `.csv` blob is either copied or skipped:
the two counters add up to the number of `.csv` blobs listed. -/
theorem processAll_nofault_count (cfg : SyncConfig) (names : List Str) :
    ∀ st : PassState,
      (processAll cfg noFaults st names).copied +
          (processAll cfg noFaults st names).skipped =
        st.copied + st.skipped + (names.filter isCsv).length := by
  induction names with
  | nil => intro st; simp [processAll]
  | cons a l ih =>
      intro st
      have hstep0 : processAll cfg noFaults st (a :: l) =
          processAll cfg noFaults (processBlob cfg noFaults st a) l := rfl
      by_cases hcsv : isCsv a = true
      · have hsum : (processBlob cfg noFaults st a).copied +
              (processBlob cfg noFaults st a).skipped = st.copied + st.skipped + 1 := by
          unfold processBlob processCsv
          simp only [noFaults, hcsv, if_true]
          repeat' split
          all_goals simp_all
          all_goals omega
        rw [hstep0, ih (processBlob cfg noFaults st a), hsum]
        simp [List.filter_cons, hcsv]
        omega
      · have hcsvF : isCsv a = false := by simpa using hcsv
        have hstep : processBlob cfg noFaults st a = st := by
          simp [processBlob, hcsvF]
        rw [hstep0, hstep, ih st]
        simp [List.filter_cons, hcsvF]

/-- The state a successful run reports is the loop's final state with the
summary appended: all fields other than the log are those of the loop. -/
theorem runPass_proj (env : Env) (fault : Str → StepFault) (src dest : List Str)
    (cfg : SyncConfig) (hcfg : loadConfig env = some cfg) :
    (runPass env fault src dest).src =
      (processAll cfg fault (initState src dest) (listing cfg src)).src ∧
    (runPass env fault src dest).dest =
      (processAll cfg fault (initState src dest) (listing cfg src)).dest ∧
    (runPass env fault src dest).copied =
      (processAll cfg fault (initState src dest) (listing cfg src)).copied ∧
    (runPass env fault src dest).skipped =
      (processAll cfg fault (initState src dest) (listing cfg src)).skipped ∧
    (runPass env fault src dest).copyRequests =
      (processAll cfg fault (initState src dest) (listing cfg src)).copyRequests := by
  unfold runPass
  rw [hcfg]
  exact ⟨rfl, rfl, rfl, rfl, rfl⟩

end BlobSync

namespace BlobSync

/-- Claim C8: with no deletion credential configured, running the pass
twice in immediate succession with no external change between runs is
idempotent — the second run issues no copy request at all, copies nothing,
and counts as skipped exactly the objects the first run copied or skipped;
on the concrete scenario of §8 the two runs report the counters
`(2, 0, 0, 0)` and then `(0, 2, 0, 0)`. -/
theorem secondRunSkipsAll :
    (∀ (env : Env) (src dest : List Str),
      stripStr ((Env.sourceDeleteSas env).getD []) = [] →
        (runPass env noFaults (runPass env noFaults src dest).src
            (runPass env noFaults src dest).dest).copyRequests = [] ∧
        (runPass env noFaults (runPass env noFaults src dest).src
            (runPass env noFaults src dest).dest).copied = 0 ∧
        (runPass env noFaults (runPass env noFaults src dest).src
            (runPass env noFaults src dest).dest).skipped =
          (runPass env noFaults src dest).copied +
            (runPass env noFaults src dest).skipped) ∧
    counters (runPass scenEnv noFaults scenSrc []) = (2, 0, 0, 0) ∧
    counters (runPass scenEnv noFaults
        (runPass scenEnv noFaults scenSrc []).src
        (runPass scenEnv noFaults scenSrc []).dest) = (0, 2, 0, 0) := by
  refine ⟨?_, by decide, by decide⟩
  intro env src dest hsas
  rcases hcfg : loadConfig env with _ | cfg
  · simp [runPass, hcfg, initState]
  · have hs : cfg.sas = [] := (loadConfig_sas env cfg hcfg).trans hsas
    obtain ⟨p1src, p1dest, p1cop, p1skip, p1req⟩ :=
      runPass_proj env noFaults src dest cfg hcfg
    have hr1src : (runPass env noFaults src dest).src = src := by
      rw [p1src, processAll_src_const cfg noFaults (listing cfg src) hs (initState src dest)]
      rfl
    obtain ⟨p2src, p2dest, p2cop, p2skip, p2req⟩ :=
      runPass_proj env noFaults (runPass env noFaults src dest).src
        (runPass env noFaults src dest).dest cfg hcfg
    rw [hr1src] at p2src p2dest p2cop p2skip p2req ⊢
    have hall : ∀ n ∈ listing cfg src, isCsv n = true →
        destBlobName cfg n ∈
          (initState src (runPass env noFaults src dest).dest).dest := by
      intro n hn hc
      show destBlobName cfg n ∈ (runPass env noFaults src dest).dest
      rw [p1dest]
      exact processAll_nofault_dest_mem cfg (listing cfg src) (initState src dest) n hn hc
    obtain ⟨q1, q2, q3, q4, q5⟩ := processAll_all_present cfg (listing cfg src)
      (initState src (runPass env noFaults src dest).dest) hall
    have hcount := processAll_nofault_count cfg (listing cfg src) (initState src dest)
    refine ⟨?_, ?_, ?_⟩
    · rw [p2req, q3]; rfl
    · rw [p2cop, q1]; rfl
    · rw [p2skip, q2, p1cop, p1skip, hcount]
      simp [initState]

/-- Witness for C8: the scenario environment has no deletion credential,
and its second run re-copies nothing. -/
theorem secondRunSkipsAllWitness :
    stripStr ((Env.sourceDeleteSas scenEnv).getD []) = [] ∧
    ((runPass scenEnv noFaults (runPass scenEnv noFaults scenSrc []).src
        (runPass scenEnv noFaults scenSrc []).dest).copyRequests = [] ∧
     (runPass scenEnv noFaults (runPass scenEnv noFaults scenSrc []).src
        (runPass scenEnv noFaults scenSrc []).dest).copied = 0 ∧
     (runPass scenEnv noFaults (runPass scenEnv noFaults scenSrc []).src
        (runPass scenEnv noFaults scenSrc []).dest).skipped =
       (runPass scenEnv noFaults scenSrc []).copied +
         (runPass scenEnv noFaults scenSrc []).skipped) :=
  ⟨by decide, secondRunSkipsAll.1 scenEnv scenSrc [] (by decide)⟩

end BlobSync
